import Mathlib

/-!
Shallow embedding of the Hybrid DV/HDR GUI's client-side state layer
(the `HybridDVHDRTool` React component and its helpers), together with
theorems checking the specification's claims against that embedding.

JavaScript strings are modelled as `List Char`, JavaScript numbers that
carry progress percentages, timestamps and rates as `ℚ`, and the
`Map`/`Set` objects used for ETA metadata and queue selection as
association lists / lists of keys.
-/

namespace HybridDVHDR

/-- JavaScript strings, modelled as lists of characters. -/
abbrev JSStr := List Char

/-- Result of path classification (`'file' | 'folder' | 'unknown'`). -/
inductive PathKind where
  | file
  | folder
  | unknown
deriving DecidableEq

/-- Processing mode (`'single' | 'batch'`). -/
inductive ProcMode where
  | single
  | batch
deriving DecidableEq

/-- Lifecycle status of a queue item. -/
inductive QueueStatus where
  | pending
  | processing
  | completed
  | error
deriving DecidableEq

/-- Overall processing status (`'idle' | 'processing' | 'completed' | 'error'`). -/
inductive ProcStatus where
  | idle
  | processing
  | completed
  | error
deriving DecidableEq

/-! ## ETA smoothing (`computeSmoothedEta`, fully featured variant) -/

/-- One `(timestamp, percentComplete)` progress sample; times are in
milliseconds as produced by `Date.now()`. -/
structure Sample where
  time : ℚ
  progress : ℚ
deriving DecidableEq

/-- Per-item ETA metadata (`{ start, lastProgress, samples }`). -/
structure EtaMeta where
  start : ℚ
  lastProgress : ℚ
  samples : List Sample
deriving DecidableEq

/-- `const etaAveragingWindow = 6`. -/
def etaAveragingWindow : Nat := 6

/-- JavaScript `array.slice(-n)`: the trailing `n` elements. -/
def jsSliceLast (n : Nat) (l : List α) : List α :=
  l.drop (l.length - n)

/-- JavaScript `Math.round` on the (here always nonnegative) rationals:
round half away from zero upwards. -/
def jsRound (x : ℚ) : ℤ :=
  ⌊x + 1 / 2⌋

/-- Instantaneous rates between consecutive samples:
`dt = (sample.time - prev.time) / 1000`, `dp = sample.progress - prev.progress`,
rate `= dt > 0 ? dp / dt : 0`. The pairing mirrors
`nextSamples.slice(1).map((sample, index) => ...)`. -/
def consecRates (samples : List Sample) : List ℚ :=
  (samples.tail.zip samples).map fun p =>
    let dt := (p.1.time - p.2.time) / 1000
    let dp := p.1.progress - p.2.progress
    if 0 < dt then dp / dt else 0

/-- `computeSmoothedEta` of the fully featured component variant: appends
the new sample, keeps the trailing window of `etaAveragingWindow` samples,
discards non-positive rates, and projects
`Math.round(remaining / avgRate)`.  Returns the updated metadata (the
mutation `meta.samples = nextSamples`) and the optional ETA. -/
def computeSmoothedEta (meta : EtaMeta) (now progress : ℚ) : EtaMeta × Option ℤ :=
  if progress ≤ 0 then (meta, none)
  else
    let nextSamples := jsSliceLast etaAveragingWindow (meta.samples ++ [⟨now, progress⟩])
    let deltas := (consecRates nextSamples).filter fun rate => 0 < rate
    if deltas = [] then ({ meta with samples := nextSamples }, none)
    else
      let avgRate := deltas.sum / (deltas.length : ℚ)
      let remaining := max 0 (100 - progress)
      ({ meta with samples := nextSamples }, some (jsRound (remaining / avgRate)))

/-! ## Path classification -/

/-- JavaScript `value.endsWith(c)` for a one-character suffix. -/
def jsEndsWithChar (s : JSStr) (c : Char) : Bool :=
  [c].isSuffixOf s

/-- `inferPathKind`: empty strings are `'unknown'`, strings ending in a
separator are `'folder'`, all other strings are `'file'`. -/
def inferPathKind (value : JSStr) : PathKind :=
  if value = [] then .unknown
  else if jsEndsWithChar value '\\' || jsEndsWithChar value '/' then .folder
  else .file

/-- The inline classifier used by the `FileInput` `onChange` handlers:
`v.endsWith('\\') || v.endsWith('/') ? 'folder' : 'file'`. -/
def inlinePathKind (v : JSStr) : PathKind :=
  if jsEndsWithChar v '\\' || jsEndsWithChar v '/' then .folder
  else .file

/-! ## Mode derivation (both variants) -/

/-- `const derivedHdrKind = config.hdrPath ? pathKinds.hdr : pathKinds.hdr10plus`. -/
def derivedHdrKindOf (hdrPath : JSStr) (hdrKind hdr10plusKind : PathKind) : PathKind :=
  if hdrPath ≠ [] then hdrKind else hdr10plusKind

/-- Queue-aware `derivedMode` of the fully featured variant:
`queue.length > 0 ? 'batch' : derivedHdrKind === 'folder' && pathKinds.dv === 'folder' ? 'batch' : 'single'`. -/
def derivedModeQueueAware (queueLength : Nat) (hdrFamilyKind dvKind : PathKind) : ProcMode :=
  if 0 < queueLength then .batch
  else if hdrFamilyKind = .folder ∧ dvKind = .folder then .batch
  else .single

/-- Path-kind-only `derivedMode` of the simpler variants:
`pathKinds.hdr === 'folder' && pathKinds.dv === 'folder' ? 'batch' : 'single'`.
It has no queue argument because the source expression never consults the queue. -/
def derivedModePathOnly (hdrKind dvKind : PathKind) : ProcMode :=
  if hdrKind = .folder ∧ dvKind = .folder then .batch
  else .single

/-! ## Theorems for claim C1 (ETA smoothing) -/

lemma jsSliceLast_length_le (n : Nat) (l : List α) : (jsSliceLast n l).length ≤ n := by
  simp only [jsSliceLast, List.length_drop]
  omega

lemma consecRates_singleton (s : Sample) : consecRates [s] = [] := by
  simp [consecRates]

/-- C1.  ETA smoothing: per tracked item a trailing window of at most 6
(timestamp, progress) samples is kept; a sample with progress 0 never yields
an ETA; a single sample in the window never yields an ETA; non-positive
consecutive-pair rates are discarded and the remaining positive rates
averaged, the ETA being round((100 - currentProgress) / averageRate).  For
samples (t0,0),(t1,20),(t2,40) at 10-second intervals the ETA after the third
sample is 30 seconds, and two samples with decreasing progress yield no ETA. -/
theorem eta_smoothing_claim :
    (∀ (meta : EtaMeta) (now progress : ℚ),
        ((computeSmoothedEta meta now progress).1.samples).length ≤
          max meta.samples.length etaAveragingWindow) ∧
    (∀ (meta : EtaMeta) (now progress : ℚ), 0 < progress →
        ((computeSmoothedEta meta now progress).1.samples).length ≤ etaAveragingWindow) ∧
    (∀ (meta : EtaMeta) (now progress : ℚ), progress ≤ 0 →
        (computeSmoothedEta meta now progress).2 = none) ∧
    (∀ (meta : EtaMeta) (now progress : ℚ), meta.samples = [] →
        (computeSmoothedEta meta now progress).2 = none) ∧
    (∀ (meta : EtaMeta) (now progress : ℚ), 0 < progress → progress ≤ 100 →
        ∀ pos : List ℚ,
          pos = (consecRates (jsSliceLast etaAveragingWindow
                  (meta.samples ++ [⟨now, progress⟩]))).filter (fun rate => 0 < rate) →
          pos ≠ [] →
          (computeSmoothedEta meta now progress).2 =
            some (jsRound ((100 - progress) * (pos.length : ℚ) / pos.sum))) ∧
    ((computeSmoothedEta ⟨0, 0, []⟩ 0 0).2 = none ∧
      computeSmoothedEta ⟨0, 0, []⟩ 10000 20 = (⟨0, 0, [⟨10000, 20⟩]⟩, none) ∧
      (computeSmoothedEta ⟨0, 0, [⟨10000, 20⟩]⟩ 20000 40).2 = some 30) ∧
    (∀ t₁ t₂ p₁ p₂ start lastP : ℚ, 0 < p₂ → p₂ ≤ p₁ →
        (computeSmoothedEta ⟨start, lastP, [⟨t₁, p₁⟩]⟩ t₂ p₂).2 = none) := by
  refine ⟨?_, ?_, ?_, ?_, ?_, ⟨?_, ?_, ?_⟩, ?_⟩
  · intro meta now progress
    by_cases h : progress ≤ 0
    · simp [computeSmoothedEta, h]
    · simp only [computeSmoothedEta, if_neg h]
      by_cases hd : (consecRates (jsSliceLast etaAveragingWindow
          (meta.samples ++ [⟨now, progress⟩]))).filter (fun rate => 0 < rate) = []
      · simp only [hd, if_pos rfl]
        exact le_max_of_le_right (jsSliceLast_length_le _ _)
      · simp only [if_neg hd]
        exact le_max_of_le_right (jsSliceLast_length_le _ _)
  · intro meta now progress hp
    have h : ¬ progress ≤ 0 := not_le.mpr hp
    simp only [computeSmoothedEta, if_neg h]
    by_cases hd : (consecRates (jsSliceLast etaAveragingWindow
        (meta.samples ++ [⟨now, progress⟩]))).filter (fun rate => 0 < rate) = []
    · simp only [hd, if_pos rfl]
      exact jsSliceLast_length_le _ _
    · simp only [if_neg hd]
      exact jsSliceLast_length_le _ _
  · intro meta now progress h
    simp [computeSmoothedEta, h]
  · intro meta now progress h
    by_cases hp : progress ≤ 0
    · simp [computeSmoothedEta, hp]
    · simp [computeSmoothedEta, hp, h, jsSliceLast, etaAveragingWindow, consecRates_singleton]
  · intro meta now progress hp hle pos hpos hne
    have h : ¬ progress ≤ 0 := not_le.mpr hp
    simp only [computeSmoothedEta, if_neg h, ← hpos, if_neg hne]
    have hmax : max 0 (100 - progress) = 100 - progress :=
      max_eq_right (by linarith)
    rw [hmax, div_div_eq_mul_div]
  · norm_num [computeSmoothedEta]
  · norm_num [computeSmoothedEta, consecRates, jsSliceLast, etaAveragingWindow, jsRound]
  · norm_num [computeSmoothedEta, consecRates, jsSliceLast, etaAveragingWindow, jsRound]
  · intro t₁ t₂ p₁ p₂ start lastP h2 hle
    have h : ¬ p₂ ≤ 0 := not_le.mpr h2
    have hrate : (consecRates (jsSliceLast etaAveragingWindow
        ([⟨t₁, p₁⟩] ++ [⟨t₂, p₂⟩]))).filter (fun rate => 0 < rate) = [] := by
      have hslice : jsSliceLast etaAveragingWindow ([(⟨t₁, p₁⟩ : Sample)] ++ [⟨t₂, p₂⟩]) =
          [⟨t₁, p₁⟩, ⟨t₂, p₂⟩] := by
        simp [jsSliceLast, etaAveragingWindow]
      rw [hslice, List.filter_eq_nil_iff]
      intro a ha
      simp only [consecRates, List.tail_cons, List.zip_cons_cons, List.zip_nil_left,
        List.map_cons, List.map_nil, List.mem_singleton] at ha
      subst ha
      simp only [decide_eq_true_eq]
      by_cases hdt : 0 < (t₂ - t₁) / 1000
      · rw [if_pos hdt]
        exact not_lt.mpr (div_nonpos_of_nonpos_of_nonneg (by linarith) (le_of_lt hdt))
      · rw [if_neg hdt]
        exact lt_irrefl 0
    simp only [computeSmoothedEta, if_neg h]
    rw [hrate]
    simp

/-- Witness for C1, exercising the hypotheses at concrete inputs. -/
theorem eta_smoothing_claim_witness :
    (computeSmoothedEta ⟨0, 0, []⟩ 5000 (-3)).2 = none ∧
    ((computeSmoothedEta ⟨0, 0, []⟩ 10000 20).1.samples).length ≤ etaAveragingWindow ∧
    (computeSmoothedEta ⟨0, 0, [⟨0, 30⟩]⟩ 10000 20).2 = none ∧
    (computeSmoothedEta ⟨0, 0, [⟨10000, 20⟩]⟩ 20000 40).2 =
      some (jsRound ((100 - 40) * ((1 : Nat) : ℚ) / 2)) := by
  refine ⟨eta_smoothing_claim.2.2.1 _ _ _ (by norm_num),
          eta_smoothing_claim.2.1 _ _ _ (by norm_num),
          eta_smoothing_claim.2.2.2.2.2.2 0 10000 30 20 0 0 (by norm_num) (by norm_num),
          ?_⟩
  have h := eta_smoothing_claim.2.2.2.2.1 ⟨0, 0, [⟨10000, 20⟩]⟩ 20000 40
      (by norm_num) (by norm_num) [2] ?_ (by simp)
  · simpa using h
  · norm_num [consecRates, jsSliceLast, etaAveragingWindow]

/-! ## Theorems for claim C8 (path classification) -/

lemma jsEndsWithChar_iff (s : JSStr) (c : Char) :
    jsEndsWithChar s c = true ↔ s.getLast? = some c := by
  simp only [jsEndsWithChar, List.isSuffixOf_iff_suffix, List.getLast?_eq_some_iff]
  constructor
  · rintro ⟨t, ht⟩
    exact ⟨t, ht.symm⟩
  · rintro ⟨t, rfl⟩
    exact ⟨t, rfl⟩

/-- C8 counterexample.  The claim states that classification yields `'file'`
for every string not ending in a separator, "including the empty string";
but `inferPathKind` returns `'unknown'` for the empty string. -/
theorem path_classification_counterexample :
    inferPathKind [] = PathKind.unknown ∧ PathKind.unknown ≠ PathKind.file := by
  constructor
  · rfl
  · intro h
    exact PathKind.noConfusion h

/-- C8 (amended).  `inferPathKind` yields `'unknown'` for the empty string;
for every non-empty string it agrees with the inline `onChange` classifier,
which yields `'folder'` exactly when the last character is `'\\'` or `'/'`
and `'file'` otherwise (the inline classifier maps the empty string to
`'file'`). -/
theorem path_classification_amended :
    inferPathKind [] = PathKind.unknown ∧
    inlinePathKind [] = PathKind.file ∧
    (∀ v : JSStr, v ≠ [] → inferPathKind v = inlinePathKind v) ∧
    (∀ v : JSStr, inlinePathKind v = PathKind.folder ↔
      (v.getLast? = some '\\' ∨ v.getLast? = some '/')) := by
  refine ⟨rfl, rfl, ?_, ?_⟩
  · intro v hv
    simp [inferPathKind, inlinePathKind, hv]
  · intro v
    by_cases h : (jsEndsWithChar v '\\' || jsEndsWithChar v '/') = true
    · simp only [inlinePathKind, if_pos h, true_iff]
      rcases Bool.or_eq_true_iff.mp h with h1 | h2
      · exact Or.inl ((jsEndsWithChar_iff v '\\').mp h1)
      · exact Or.inr ((jsEndsWithChar_iff v '/').mp h2)
    · simp only [inlinePathKind, if_neg h]
      constructor
      · intro hfk
        exact absurd hfk (by intro hh; exact PathKind.noConfusion hh)
      · intro hlast
        exfalso
        apply h
        rcases hlast with h1 | h2
        · exact Bool.or_eq_true_iff.mpr (Or.inl ((jsEndsWithChar_iff v '\\').mpr h1))
        · exact Bool.or_eq_true_iff.mpr (Or.inr ((jsEndsWithChar_iff v '/').mpr h2))

/-- Witness for C8's amended theorem at concrete inputs. -/
theorem path_classification_amended_witness :
    inferPathKind ['a'] = inlinePathKind ['a'] ∧
    inferPathKind ['C', ':', '\\'] = inlinePathKind ['C', ':', '\\'] :=
  ⟨path_classification_amended.2.2.1 ['a'] (by decide),
   path_classification_amended.2.2.1 ['C', ':', '\\'] (by decide)⟩

/-! ## Theorems for claim C4 (mode-derivation variants) -/

/-- C4.  The two mode-derivation variants agree on every state with an empty
queue: mode is `'batch'` iff both the HDR-family kind and the DV kind are
`'folder'`, else `'single'`; the queue-aware variant additionally yields
`'batch'` for every non-empty queue, while the path-kind-only variant has no
queue input at all. -/
theorem mode_derivation_variants :
    (∀ hk dk : PathKind, derivedModeQueueAware 0 hk dk = derivedModePathOnly hk dk) ∧
    (∀ hk dk : PathKind,
        derivedModeQueueAware 0 hk dk = ProcMode.batch ↔
          (hk = PathKind.folder ∧ dk = PathKind.folder)) ∧
    (∀ (n : Nat) (hk dk : PathKind), 0 < n →
        derivedModeQueueAware n hk dk = ProcMode.batch) := by
  refine ⟨?_, ?_, ?_⟩
  · intro hk dk
    cases hk <;> cases dk <;> rfl
  · intro hk dk
    cases hk <;> cases dk <;> simp [derivedModeQueueAware]
  · intro n hk dk hn
    simp [derivedModeQueueAware, hn]

/-- Witness for C4 at a concrete non-empty queue length. -/
theorem mode_derivation_variants_witness :
    derivedModeQueueAware 1 PathKind.file PathKind.file = ProcMode.batch :=
  mode_derivation_variants.2.2 1 PathKind.file PathKind.file (by decide)

/-! ## Data model of the fully featured component variant -/

/-- `ToolPaths` of the fully featured variant (eight fields). -/
structure ToolPaths where
  doviTool : JSStr
  mkvmerge : JSStr
  mkvextract : JSStr
  ffmpeg : JSStr
  mediainfo : JSStr
  mp4box : JSStr
  hdr10plusTool : JSStr
  defaultOutput : JSStr
deriving DecidableEq

/-- `defaultToolPaths` of the fully featured variant. -/
def defaultToolPaths : ToolPaths where
  doviTool := "dovi_tool".data
  mkvmerge := "mkvmerge".data
  mkvextract := "mkvextract".data
  ffmpeg := "ffmpeg".data
  mediainfo := "MediaInfo".data
  mp4box := "MP4Box".data
  hdr10plusTool := "hdr10plus_tool".data
  defaultOutput := "DV.HDR".data

/-- `ProcessingConfig` of the fully featured variant. -/
structure ProcessingConfigA where
  hdrPath : JSStr
  dvPath : JSStr
  outputPath : JSStr
  hdr10plusPath : JSStr
  dvDelayMs : ℚ
  hdr10plusDelayMs : ℚ
  mode : ProcMode
  parallelTasks : Nat
  keepTempFiles : Bool
deriving DecidableEq

/-- The `pathKinds` state object. -/
structure PathKinds where
  hdr : PathKind
  hdr10plus : PathKind
  dv : PathKind
  output : PathKind
deriving DecidableEq

/-- One batch queue entry (`QueueFile`). -/
structure QueueFile where
  id : JSStr
  hdrFile : JSStr
  dvFile : JSStr
  outputFile : JSStr
  hdrPath : JSStr
  dvPath : JSStr
  outputPath : JSStr
  status : QueueStatus
  progress : ℚ
  currentStep : Option JSStr
  etaSeconds : Option ℤ
  activeWorkers : Option Nat
  fileTotal : Option Nat
deriving DecidableEq

/-- A saved preset snapshot. -/
structure Preset where
  id : JSStr
  name : JSStr
  config : ProcessingConfigA
  toolPaths : ToolPaths
  dvDelayInput : JSStr
  hdr10plusDelayInput : JSStr
  showDelays : Bool
deriving DecidableEq

/-- The mutable UI state of the fully featured component variant that the
claims concern (form paths, classification, queue, selection, presets). -/
structure UIState where
  config : ProcessingConfigA
  pathKinds : PathKinds
  toolPaths : ToolPaths
  queue : List QueueFile
  selectedQueueIds : List JSStr
  presets : List Preset
  selectedPresetId : JSStr
  dvDelayInput : JSStr
  hdr10plusDelayInput : JSStr
  showDelays : Bool
  logs : List JSStr
deriving DecidableEq

/-- The `useState` initial values of the fully featured variant. -/
def initialUIState : UIState where
  config :=
    { hdrPath := [], dvPath := [], outputPath := [], hdr10plusPath := []
      dvDelayMs := 0, hdr10plusDelayMs := 0, mode := .single
      parallelTasks := 4, keepTempFiles := false }
  pathKinds := { hdr := .unknown, hdr10plus := .unknown, dv := .unknown, output := .unknown }
  toolPaths := defaultToolPaths
  queue := []
  selectedQueueIds := []
  presets := []
  selectedPresetId := []
  dvDelayInput := []
  hdr10plusDelayInput := []
  showDelays := false
  logs := []

/-! ## String helpers used by the component -/

/-- JavaScript `Set.prototype.add`: append the key if it is not a member. -/
def setAdd (l : List JSStr) (x : JSStr) : List JSStr :=
  if x ∈ l then l else l ++ [x]

/-- The pattern `'.mkv'`. -/
def mkvPat : JSStr := ".mkv".data

/-- The literal `'.hybrid.mkv'` appended by the default output name. -/
def hybridSuffix : JSStr := ".hybrid.mkv".data

/-- JavaScript `String.prototype.replace` with a plain-string pattern:
replaces only the first occurrence (searching from the left), returning the
input unchanged when the pattern does not occur. -/
def replaceFirst (pat repl : JSStr) : JSStr → JSStr
  | [] => if pat = [] then repl else []
  | c :: rest =>
    if pat.isPrefixOf (c :: rest) then repl ++ (c :: rest).drop pat.length
    else c :: replaceFirst pat repl rest

/-- `path.split('\\').filter(Boolean).pop() || path`: the last non-empty
backslash-separated segment, or the whole path when there is none. -/
def baseLabel (path : JSStr) : JSStr :=
  match ((List.splitOn '\\' path).filter fun seg => seg ≠ []).getLast? with
  | some seg => seg
  | none => path

/-- JavaScript `toLowerCase`, character by character. -/
def jsToLower (s : JSStr) : JSStr :=
  s.map Char.toLower

/-- JavaScript `label.includes(sub)`: does `sub` occur contiguously in `s`? -/
def jsIncludes (s sub : JSStr) : Bool :=
  decide (sub <:+: s)

/-! ## State transitions of the fully featured variant -/

/-- `const derivedHdrPath = config.hdrPath || config.hdr10plusPath`. -/
def UIState.derivedHdrPath (s : UIState) : JSStr :=
  if s.config.hdrPath ≠ [] then s.config.hdrPath else s.config.hdr10plusPath

/-- `const derivedHdrKind = config.hdrPath ? pathKinds.hdr : pathKinds.hdr10plus`. -/
def UIState.derivedHdrKind (s : UIState) : PathKind :=
  if s.config.hdrPath ≠ [] then s.pathKinds.hdr else s.pathKinds.hdr10plus

/-- The queue-aware `derivedMode` expression, applied to the full state. -/
def UIState.derivedMode (s : UIState) : ProcMode :=
  derivedModeQueueAware s.queue.length s.derivedHdrKind s.pathKinds.dv

/-- Targets of the browse dialogs and manual prompts. -/
inductive BrowseTarget where
  | hdr
  | dv
  | output
  | hdr10plus
deriving DecidableEq

/-- The `FileInput` `onChange` handler for the HDR source:
`{ ...prev, hdrPath: v, hdr10plusPath: '' }` plus inline re-classification. -/
def setHdrText (s : UIState) (v : JSStr) : UIState :=
  { s with
    config := { s.config with hdrPath := v, hdr10plusPath := [] }
    pathKinds := { s.pathKinds with hdr := inlinePathKind v } }

/-- The `FileInput` `onChange` handler for the DV source. -/
def setDvText (s : UIState) (v : JSStr) : UIState :=
  { s with
    config := { s.config with dvPath := v }
    pathKinds := { s.pathKinds with dv := inlinePathKind v } }

/-- The `FileInput` `onChange` handler for the HDR10+ source:
`{ ...prev, hdr10plusPath: v, hdrPath: '' }` plus inline re-classification. -/
def setHdr10plusText (s : UIState) (v : JSStr) : UIState :=
  { s with
    config := { s.config with hdr10plusPath := v, hdrPath := [] }
    pathKinds := { s.pathKinds with hdr10plus := inlinePathKind v } }

/-- The `FileInput` `onChange` handler for the output path. -/
def setOutputText (s : UIState) (v : JSStr) : UIState :=
  { s with
    config := { s.config with outputPath := v }
    pathKinds := { s.pathKinds with output := inlinePathKind v } }

/-- Common state update of `browseFile` / `browseFolder` once a dialog (or
the host-absent manual prompt) has produced a path: the HDR target clears the
HDR10+ path, the HDR10+ target clears the HDR path, and the path kind of the
target is set to `'file'` or `'folder'` according to the dialog used. -/
def browseAssign (s : UIState) (target : BrowseTarget) (selected : JSStr)
    (kind : PathKind) : UIState :=
  match target with
  | .hdr10plus =>
    { s with
      config := { s.config with hdr10plusPath := selected, hdrPath := [] }
      pathKinds := { s.pathKinds with hdr10plus := kind } }
  | .hdr =>
    { s with
      config := { s.config with hdrPath := selected, hdr10plusPath := [] }
      pathKinds := { s.pathKinds with hdr := kind } }
  | .dv =>
    { s with
      config := { s.config with dvPath := selected }
      pathKinds := { s.pathKinds with dv := kind } }
  | .output =>
    { s with
      config := { s.config with outputPath := selected }
      pathKinds := { s.pathKinds with output := kind } }

/-- `handleDropAssign`: route a dropped path to the HDR10+, DV or HDR slot by
case-insensitive keyword matching on the dropped item's name. -/
def handleDropAssign (s : UIState) (path : JSStr) (isFolder : Bool)
    (name : Option JSStr) : UIState :=
  let label :=
    match name with
    | some n => if jsToLower n ≠ [] then jsToLower n else jsToLower path
    | none => jsToLower path
  let isHdr10plus := jsIncludes label "hdr10".data || jsIncludes label "hdr10+".data ||
    jsIncludes label "hdr10plus".data
  let isDv := jsIncludes label "dv".data || jsIncludes label "dovi".data ||
    jsIncludes label "dolby".data
  let isHdr := jsIncludes label "hdr".data
  if isHdr10plus then
    { s with
      config := { s.config with hdr10plusPath := path, hdrPath := [] }
      pathKinds := { s.pathKinds with hdr10plus := if isFolder then .folder else .file } }
  else if isDv || (s.config.dvPath = [] && !isHdr) then
    { s with
      config := { s.config with dvPath := path }
      pathKinds := { s.pathKinds with dv := if isFolder then .folder else .file } }
  else if isHdr || s.config.hdrPath = [] then
    { s with
      config := { s.config with hdrPath := path, hdr10plusPath := [] }
      pathKinds := { s.pathKinds with hdr := if isFolder then .folder else .file } }
  else s

/-- `addToQueue` of the fully featured variant.  The generated
`crypto.randomUUID()` identifier is passed in as `newId`. -/
def addToQueue (s : UIState) (newId : JSStr) : UIState :=
  if s.derivedHdrPath = [] ∨ s.config.dvPath = [] then s
  else
    let isBatch := s.derivedMode = .batch
    let hdrLabel := baseLabel s.derivedHdrPath
    let dvLabel := baseLabel s.config.dvPath
    let outputFile :=
      if isBatch then
        (if s.config.outputPath ≠ [] then s.config.outputPath else s.toolPaths.defaultOutput)
      else
        (if s.config.outputPath ≠ [] then s.config.outputPath
         else replaceFirst mkvPat [] hdrLabel ++ hybridSuffix)
    let newFile : QueueFile :=
      { id := newId, hdrFile := hdrLabel, dvFile := dvLabel, outputFile := outputFile
        hdrPath := s.derivedHdrPath, dvPath := s.config.dvPath
        outputPath := if isBatch then s.config.outputPath else outputFile
        status := .pending, progress := 0
        currentStep := none, etaSeconds := none, activeWorkers := none, fileTotal := none }
    { s with
      queue := s.queue ++ [newFile]
      selectedQueueIds := setAdd s.selectedQueueIds newId
      config := { s.config with hdrPath := [], hdr10plusPath := [], dvPath := [], outputPath := [] }
      logs := s.logs ++ ["Added to queue: ".data ++ newFile.outputFile] }

/-- `savePreset`: snapshot the current form state under a prompted name (a
falsy name aborts); the generated identifier is passed in as `newId`. -/
def savePreset (s : UIState) (newId name : JSStr) : UIState :=
  if name = [] then s
  else
    { s with
      presets := s.presets ++
        [{ id := newId, name := name, config := s.config, toolPaths := s.toolPaths
           dvDelayInput := s.dvDelayInput, hdr10plusDelayInput := s.hdr10plusDelayInput
           showDelays := s.showDelays }]
      selectedPresetId := newId }

/-- `applyPreset`: replace form state wholesale from the stored snapshot and
re-derive all four path kinds with `inferPathKind`. -/
def applyPreset (s : UIState) (presetId : JSStr) : UIState :=
  match s.presets.find? fun p => p.id == presetId with
  | none => s
  | some preset =>
    { s with
      config := preset.config
      toolPaths := preset.toolPaths
      dvDelayInput := preset.dvDelayInput
      hdr10plusDelayInput := preset.hdr10plusDelayInput
      showDelays := preset.showDelays
      pathKinds :=
        { hdr := inferPathKind preset.config.hdrPath
          hdr10plus := inferPathKind preset.config.hdr10plusPath
          dv := inferPathKind preset.config.dvPath
          output := inferPathKind preset.config.outputPath } }

/-- `handlePresetChange` for a non-reserved value: select and apply. -/
def handlePresetChange (s : UIState) (value : JSStr) : UIState :=
  applyPreset { s with selectedPresetId := value } value

/-- The user-interface events that assign source paths or move form state
around, as listed by the claim: free-text entry, browse dialog results,
manual-prompt fallbacks (same state effect as the dialogs), drag-and-drop
assignment, add-to-queue, and preset saving/application. -/
inductive UIEvent where
  | hdrText (v : JSStr)
  | dvText (v : JSStr)
  | hdr10plusText (v : JSStr)
  | outputText (v : JSStr)
  | browse (target : BrowseTarget) (kind : PathKind) (selected : JSStr)
  | drop (path : JSStr) (isFolder : Bool) (name : Option JSStr)
  | addQueue (newId : JSStr)
  | savePresetEv (newId name : JSStr)
  | applyPresetEv (presetId : JSStr)

/-- One step of the UI state machine. -/
def uiStep (s : UIState) : UIEvent → UIState
  | .hdrText v => setHdrText s v
  | .dvText v => setDvText s v
  | .hdr10plusText v => setHdr10plusText s v
  | .outputText v => setOutputText s v
  | .browse target kind selected => browseAssign s target selected kind
  | .drop path isFolder name => handleDropAssign s path isFolder name
  | .addQueue newId => addToQueue s newId
  | .savePresetEv newId name => savePreset s newId name
  | .applyPresetEv presetId => handlePresetChange s presetId

/-- Run a sequence of events from a state. -/
def uiRun (s : UIState) (evs : List UIEvent) : UIState :=
  evs.foldl uiStep s

/-! ## Theorems for claim C3 (HDR/HDR10+ mutual exclusion) -/

/-- At most one of the HDR path and the HDR10+ path is non-empty. -/
def hdrExclusive (c : ProcessingConfigA) : Prop :=
  c.hdrPath = [] ∨ c.hdr10plusPath = []

/-- Invariant strengthened over stored presets so that preset application
preserves it. -/
def uiInv (s : UIState) : Prop :=
  hdrExclusive s.config ∧ ∀ p ∈ s.presets, hdrExclusive p.config

lemma uiStep_preserves_inv (s : UIState) (e : UIEvent) (h : uiInv s) :
    uiInv (uiStep s e) := by
  obtain ⟨hc, hp⟩ := h
  cases e with
  | hdrText v => exact ⟨Or.inr rfl, hp⟩
  | dvText v => exact ⟨hc, hp⟩
  | hdr10plusText v => exact ⟨Or.inl rfl, hp⟩
  | outputText v => exact ⟨hc, hp⟩
  | browse target kind selected =>
    cases target with
    | hdr => exact ⟨Or.inr rfl, hp⟩
    | dv => exact ⟨hc, hp⟩
    | output => exact ⟨hc, hp⟩
    | hdr10plus => exact ⟨Or.inl rfl, hp⟩
  | drop path isFolder name =>
    simp only [uiStep, handleDropAssign]
    split
    · exact ⟨Or.inl rfl, hp⟩
    · split
      · exact ⟨hc, hp⟩
      · split
        · exact ⟨Or.inr rfl, hp⟩
        · exact ⟨hc, hp⟩
  | addQueue newId =>
    simp only [uiStep, addToQueue]
    split
    · exact ⟨hc, hp⟩
    · exact ⟨Or.inl rfl, hp⟩
  | savePresetEv newId name =>
    simp only [uiStep, savePreset]
    split
    · exact ⟨hc, hp⟩
    · refine ⟨hc, ?_⟩
      intro p hmem
      rcases List.mem_append.mp hmem with hold | hnew
      · exact hp p hold
      · rcases List.mem_singleton.mp hnew with rfl
        exact hc
  | applyPresetEv presetId =>
    simp only [uiStep, handlePresetChange, applyPreset]
    split
    · exact ⟨hc, hp⟩
    · next preset hfind =>
      exact ⟨hp preset (List.mem_of_find?_eq_some hfind), hp⟩

lemma uiRun_preserves_inv (s : UIState) (evs : List UIEvent) (h : uiInv s) :
    uiInv (uiRun s evs) := by
  induction evs generalizing s with
  | nil => exact h
  | cons e rest ih => exact ih _ (uiStep_preserves_inv s e h)

/-- C3.  Invariant over every state of the fully featured variant reachable
by text entry, browse/manual-prompt assignment, drag-and-drop assignment,
add-to-queue, and preset saving/application: at most one of the HDR path and
the HDR10+ path is non-empty; moreover assigning either slot (by text or by
browse) clears the other. -/
theorem hdr_slots_mutually_exclusive :
    (∀ evs : List UIEvent,
        (uiRun initialUIState evs).config.hdrPath = [] ∨
        (uiRun initialUIState evs).config.hdr10plusPath = []) ∧
    (∀ (s : UIState) (v : JSStr), (setHdrText s v).config.hdr10plusPath = []) ∧
    (∀ (s : UIState) (v : JSStr), (setHdr10plusText s v).config.hdrPath = []) ∧
    (∀ (s : UIState) (sel : JSStr) (k : PathKind),
        (browseAssign s BrowseTarget.hdr sel k).config.hdr10plusPath = []) ∧
    (∀ (s : UIState) (sel : JSStr) (k : PathKind),
        (browseAssign s BrowseTarget.hdr10plus sel k).config.hdrPath = []) := by
  refine ⟨?_, fun s v => rfl, fun s v => rfl, fun s sel k => rfl, fun s sel k => rfl⟩
  intro evs
  have hinit : uiInv initialUIState := ⟨Or.inl rfl, by intro p hmem; cases hmem⟩
  exact (uiRun_preserves_inv initialUIState evs hinit).1

/-! ## Theorems for claim C9 (addToQueue guard and effect) -/

lemma setAdd_mem (l : List JSStr) (x : JSStr) : x ∈ setAdd l x := by
  unfold setAdd
  split
  · next h => exact h
  · simp

/-- C9.  `addToQueue` creates a queue entry only when both the resolved
primary source path and the DV source path are non-empty at call time —
otherwise it changes nothing; on success exactly one entry with status
`'pending'` and progress 0 is appended to the end of the queue, the new
entry's id is added to the selection set, the HDR, HDR10+, DV and output path
fields are reset to empty strings, and concurrency, temp-file retention and
tool paths are unchanged. -/
theorem addToQueue_claim :
    (∀ (s : UIState) (newId : JSStr),
        s.derivedHdrPath = [] ∨ s.config.dvPath = [] → addToQueue s newId = s) ∧
    (∀ (s : UIState) (newId : JSStr),
        s.derivedHdrPath ≠ [] → s.config.dvPath ≠ [] →
        (∃ e : QueueFile,
            (addToQueue s newId).queue = s.queue ++ [e] ∧
            e.id = newId ∧ e.status = QueueStatus.pending ∧ e.progress = 0) ∧
        (addToQueue s newId).selectedQueueIds = setAdd s.selectedQueueIds newId ∧
        newId ∈ (addToQueue s newId).selectedQueueIds ∧
        (addToQueue s newId).config.hdrPath = [] ∧
        (addToQueue s newId).config.hdr10plusPath = [] ∧
        (addToQueue s newId).config.dvPath = [] ∧
        (addToQueue s newId).config.outputPath = [] ∧
        (addToQueue s newId).config.parallelTasks = s.config.parallelTasks ∧
        (addToQueue s newId).config.keepTempFiles = s.config.keepTempFiles ∧
        (addToQueue s newId).toolPaths = s.toolPaths) := by
  constructor
  · intro s newId h
    simp only [addToQueue, if_pos h]
  · intro s newId h1 h2
    have hg : ¬ (s.derivedHdrPath = [] ∨ s.config.dvPath = []) := by
      rintro (h | h)
      · exact h1 h
      · exact h2 h
    unfold addToQueue
    rw [if_neg hg]
    exact ⟨⟨_, rfl, rfl, rfl, rfl⟩, rfl, setAdd_mem _ _, rfl, rfl, rfl, rfl, rfl, rfl, rfl⟩

/-- A concrete state with both source paths filled in, for the C9 witness. -/
def addQueueWitnessState : UIState :=
  { initialUIState with
    config := { initialUIState.config with
                  hdrPath := "C:\\a.mkv".data, dvPath := "C:\\b.mkv".data }
    pathKinds := { initialUIState.pathKinds with hdr := .file, dv := .file } }

/-- Witness for C9 at a concrete state. -/
theorem addToQueue_claim_witness :
    (addToQueue addQueueWitnessState "q1".data).config.hdrPath = [] ∧
    "q1".data ∈ (addToQueue addQueueWitnessState "q1".data).selectedQueueIds ∧
    addToQueue initialUIState "q1".data = initialUIState := by
  have h := addToQueue_claim.2 addQueueWitnessState "q1".data (by decide) (by decide)
  exact ⟨h.2.2.2.1, h.2.2.1,
    addToQueue_claim.1 initialUIState "q1".data (Or.inl (by decide))⟩

/-! ## Theorems for claim C2 (default single-mode output filename) -/

/-- Comparator following the spec's words for the default output filename:
"the primary source's base name with a trailing `.mkv` removed and
`.hybrid.mkv` appended". -/
def specSingleOutputName (base : JSStr) : JSStr :=
  (if mkvPat.isSuffixOf base then base.take (base.length - mkvPat.length) else base) ++
    hybridSuffix

/-- A single-mode state whose primary source contains `.mkv` in a
non-trailing position. -/
def c2State : UIState :=
  { initialUIState with
    config := { initialUIState.config with
                  hdrPath := "x.mkv.y".data, dvPath := "d".data }
    pathKinds := { initialUIState.pathKinds with hdr := .file, dv := .file } }

/-- C2 counterexample.  For the base name `x.mkv.y` (no trailing `.mkv`) the
code removes the first occurrence of `.mkv` — JavaScript
`replace('.mkv', '')` replaces the first occurrence, not a trailing suffix —
so the entry's output name is `x.y.hybrid.mkv`, while the claimed
trailing-strip rule yields `x.mkv.y.hybrid.mkv`. -/
theorem default_output_name_counterexample :
    ((addToQueue c2State "q1".data).queue.map fun e => e.outputFile) =
      ["x.y.hybrid.mkv".data] ∧
    specSingleOutputName "x.mkv.y".data = "x.mkv.y.hybrid.mkv".data ∧
    "x.y.hybrid.mkv".data ≠ "x.mkv.y.hybrid.mkv".data := by
  refine ⟨by decide, by decide, by decide⟩

lemma jsIncludes_tail (c : Char) (rest pat : JSStr) (h : jsIncludes (c :: rest) pat = false) :
    jsIncludes rest pat = false := by
  simp only [jsIncludes, decide_eq_false_iff_not] at h ⊢
  exact fun hin => h (List.infix_cons hin)

lemma mkv_not_prefix_append (c : Char) (rest : JSStr)
    (h : jsIncludes (c :: rest) mkvPat = false) :
    List.isPrefixOf mkvPat (c :: (rest ++ mkvPat)) = false := by
  match rest with
  | [] => simp [mkvPat, List.isPrefixOf]
  | [c2] => simp [mkvPat, List.isPrefixOf]
  | [c2, c3] => simp [mkvPat, List.isPrefixOf]
  | c2 :: c3 :: c4 :: rest' =>
    cases hp : List.isPrefixOf mkvPat (c :: ((c2 :: c3 :: c4 :: rest') ++ mkvPat)) with
    | false => rfl
    | true =>
      exfalso
      simp only [mkvPat, List.cons_append, List.isPrefixOf, Bool.and_eq_true, beq_iff_eq] at hp
      obtain ⟨h1, h2, h3, h4, -⟩ := hp
      subst h1; subst h2; subst h3; subst h4
      simp only [jsIncludes, decide_eq_false_iff_not] at h
      exact h ⟨[], rest', rfl⟩

/-- When `.mkv` does not occur before the trailing suffix, the
first-occurrence replacement does strip exactly the trailing `.mkv`. -/
lemma replaceFirst_mkv_trailing (pre : JSStr) (h : jsIncludes pre mkvPat = false) :
    replaceFirst mkvPat [] (pre ++ mkvPat) = pre := by
  induction pre with
  | nil => rfl
  | cons c rest ih =>
    have hpre := mkv_not_prefix_append c rest h
    have step : replaceFirst mkvPat [] (c :: (rest ++ mkvPat)) =
        c :: replaceFirst mkvPat [] (rest ++ mkvPat) := by
      show (if List.isPrefixOf mkvPat (c :: (rest ++ mkvPat)) = true then
          [] ++ (c :: (rest ++ mkvPat)).drop mkvPat.length
        else c :: replaceFirst mkvPat [] (rest ++ mkvPat)) = _
      rw [hpre]
      simp
    rw [List.cons_append, step, ih (jsIncludes_tail c rest mkvPat h)]

/-- C2 (amended).  For every single-mode queue entry created with no
explicit output path, the default output filename equals the primary
source's base name with the *first* occurrence of `.mkv` removed (the name
unchanged when `.mkv` does not occur) and `.hybrid.mkv` appended; when the
base name's only occurrence of `.mkv` is the trailing one, this agrees with
the spec's trailing-strip rule. -/
theorem default_output_name_amended :
    (∀ (s : UIState) (newId : JSStr),
        s.derivedMode = ProcMode.single → s.derivedHdrPath ≠ [] →
        s.config.dvPath ≠ [] → s.config.outputPath = [] →
        ∃ e : QueueFile,
          (addToQueue s newId).queue = s.queue ++ [e] ∧
          e.outputFile = replaceFirst mkvPat [] (baseLabel s.derivedHdrPath) ++ hybridSuffix) ∧
    (∀ pre : JSStr, jsIncludes pre mkvPat = false →
        replaceFirst mkvPat [] (pre ++ mkvPat) ++ hybridSuffix =
          specSingleOutputName (pre ++ mkvPat)) := by
  constructor
  · intro s newId hm h1 h2 hout
    have hg : ¬ (s.derivedHdrPath = [] ∨ s.config.dvPath = []) := by
      rintro (hh | hh)
      · exact h1 hh
      · exact h2 hh
    have hnb : ¬ s.derivedMode = ProcMode.batch := by
      rw [hm]
      intro hh
      exact ProcMode.noConfusion hh
    unfold addToQueue
    rw [if_neg hg]
    refine ⟨_, rfl, ?_⟩
    show (if s.derivedMode = ProcMode.batch then _ else
        if s.config.outputPath ≠ [] then s.config.outputPath
        else replaceFirst mkvPat [] (baseLabel s.derivedHdrPath) ++ hybridSuffix) = _
    rw [if_neg hnb, if_neg (by rw [hout]; exact fun hh => hh rfl)]
  · intro pre h
    rw [replaceFirst_mkv_trailing pre h]
    unfold specSingleOutputName
    have hsuf : mkvPat.isSuffixOf (pre ++ mkvPat) = true :=
      List.isSuffixOf_iff_suffix.mpr (List.suffix_append pre mkvPat)
    rw [if_pos hsuf]
    congr 1
    have hlen : (pre ++ mkvPat).length - mkvPat.length = pre.length := by
      simp [List.length_append]
    rw [hlen, List.take_left]

/-- Witness for C2's amended theorem at concrete inputs. -/
theorem default_output_name_amended_witness :
    ((addToQueue c2State "q1".data).queue.map fun e => e.outputFile) =
      [replaceFirst mkvPat [] (baseLabel c2State.derivedHdrPath) ++ hybridSuffix] ∧
    replaceFirst mkvPat [] ("movie".data ++ mkvPat) ++ hybridSuffix =
      specSingleOutputName ("movie".data ++ mkvPat) := by
  constructor
  · obtain ⟨e, he, hout⟩ := default_output_name_amended.1 c2State "q1".data
      (by decide) (by decide) (by decide) (by decide)
    have hq : (addToQueue c2State "q1".data).queue = [e] := by
      rw [he]
      rfl
    rw [hq]
    simp only [List.map_cons, List.map_nil]
    rw [hout]
  · exact default_output_name_amended.2 "movie".data (by decide)

/-! ## Submission (`handleStart`, both variants) for claim C5 -/

/-- `ToolPaths` of the simpler variants (five fields). -/
structure ToolPathsB where
  doviTool : JSStr
  mkvmerge : JSStr
  mkvextract : JSStr
  ffmpeg : JSStr
  defaultOutput : JSStr
deriving DecidableEq

/-- The `start_processing` request payload built by the fully featured
variant. -/
structure ProcessingRequestA where
  mode : ProcMode
  hdrPath : JSStr
  dvPath : JSStr
  outputPath : JSStr
  hdr10plusPath : JSStr
  dvDelayMs : ℚ
  hdr10plusDelayMs : ℚ
  keepTempFiles : Bool
  parallelTasks : Nat
  toolPaths : ToolPaths
  queue : List QueueFile
deriving DecidableEq

/-- The `start_processing` request payload built by the simpler variants. -/
structure ProcessingRequestB where
  mode : ProcMode
  hdrPath : JSStr
  dvPath : JSStr
  outputPath : JSStr
  keepTempFiles : Bool
  parallelTasks : Nat
  toolPaths : ToolPathsB
  queue : List QueueFile
deriving DecidableEq

/-- Result of a `handleStart` call in the host-present path: either an
error line is logged and the function returns without further effect, or the
remote start command is invoked with a request payload. -/
inductive StartOutcomeA where
  | rejected (msg : JSStr)
  | started (request : ProcessingRequestA)
deriving DecidableEq

/-- Result of a `handleStart` call of the simpler variants. -/
inductive StartOutcomeB where
  | rejected (msg : JSStr)
  | started (request : ProcessingRequestB)
deriving DecidableEq

def StartOutcomeA.startedQueue : StartOutcomeA → Option (List QueueFile)
  | .started r => some r.queue
  | .rejected _ => none

def StartOutcomeB.startedQueue : StartOutcomeB → Option (List QueueFile)
  | .started r => some r.queue
  | .rejected _ => none

def msgMissingPathsA : JSStr := "Please specify HDR/HDR10+ and DV source paths".data

def msgMissingPathsB : JSStr := "Please specify both HDR and DV source paths".data

def msgQueueEmpty : JSStr := "Please add files to the queue first".data

def msgSelectEmpty : JSStr := "Please select at least one queue item".data

/-- `handleStart` of the fully featured variant (host-present path): it
validates single-mode paths and a non-empty queue, but has no
selection-emptiness check — with an empty selection the payload falls back
to the entire queue.  The already-parsed delay inputs are passed in as
`dvDelayMs` / `hdr10plusDelayMs` (the numeric parsing of the delay text
fields is not itself under test here). -/
def handleStartA (mode : ProcMode) (derivedHdrPath dvPath outputPath hdr10plusPath : JSStr)
    (dvDelayMs hdr10plusDelayMs : ℚ) (keepTempFiles : Bool) (parallelTasks : Nat)
    (toolPaths : ToolPaths) (queue : List QueueFile) (selected : List JSStr) :
    StartOutcomeA :=
  if mode = .single ∧ (derivedHdrPath = [] ∨ dvPath = []) then .rejected msgMissingPathsA
  else if mode = .batch ∧ queue.length = 0 then .rejected msgQueueEmpty
  else
    let queueToProcess :=
      if mode = .batch then
        (if 0 < selected.length then queue.filter fun item => decide (item.id ∈ selected)
         else queue)
      else []
    .started
      { mode := mode, hdrPath := derivedHdrPath, dvPath := dvPath, outputPath := outputPath
        hdr10plusPath := hdr10plusPath, dvDelayMs := dvDelayMs
        hdr10plusDelayMs := hdr10plusDelayMs, keepTempFiles := keepTempFiles
        parallelTasks := parallelTasks, toolPaths := toolPaths, queue := queueToProcess }

/-- `handleStart` of the simpler variants (host-present path): it
additionally rejects a batch submission whose selection set is empty, and
the payload queue is always the selected subset. -/
def handleStartB (mode : ProcMode) (hdrPath dvPath outputPath : JSStr)
    (keepTempFiles : Bool) (parallelTasks : Nat) (toolPaths : ToolPathsB)
    (queue : List QueueFile) (selected : List JSStr) : StartOutcomeB :=
  if mode = .single ∧ (hdrPath = [] ∨ dvPath = []) then .rejected msgMissingPathsB
  else if mode = .batch ∧ queue.length = 0 then .rejected msgQueueEmpty
  else if mode = .batch ∧ selected.length = 0 then .rejected msgSelectEmpty
  else
    let queueToProcess :=
      if mode = .batch then queue.filter fun item => decide (item.id ∈ selected)
      else []
    .started
      { mode := mode, hdrPath := hdrPath, dvPath := dvPath, outputPath := outputPath
        keepTempFiles := keepTempFiles, parallelTasks := parallelTasks
        toolPaths := toolPaths, queue := queueToProcess }

/-- A concrete pending queue entry for the C5 counterexample. -/
def c5Entry : QueueFile :=
  { id := "a1".data, hdrFile := "h.mkv".data, dvFile := "d.mkv".data
    outputFile := "o.mkv".data, hdrPath := "h.mkv".data, dvPath := "d.mkv".data
    outputPath := "o.mkv".data, status := .pending, progress := 0
    currentStep := none, etaSeconds := none, activeWorkers := none, fileTotal := none }

/-- C5 counterexample.  In the variant without the selection check, a batch
submission with a non-empty queue and an *empty* selection is not rejected:
the start command is issued, and its payload queue is the entire queue — not
the (empty) selected subset. -/
theorem batch_submission_counterexample :
    (handleStartA ProcMode.batch "h".data "d".data [] [] 0 0 false 4 defaultToolPaths
        [c5Entry] []).startedQueue = some [c5Entry] ∧
    ([c5Entry].filter fun item => decide (item.id ∈ ([] : List JSStr))) = [] ∧
    some [c5Entry] ≠ some ([] : List QueueFile) := by
  refine ⟨by decide, by decide, by decide⟩

/-- C5 (amended).  In the variant with the selection check, batch submission
requires a non-empty queue with at least one selected item: failing either
requirement logs exactly one error line and issues no start command, and on
success the payload queue equals exactly the subset of queue entries whose
ids are in the selection set.  In the variant without the selection check,
only a non-empty queue is required: with a non-empty selection the payload
queue is the selected subset, but with an empty selection the command is
issued with the entire queue and no error is logged. -/
theorem batch_submission_amended :
    (∀ (hdrPath dvPath outputPath : JSStr) (keep : Bool) (par : Nat) (tools : ToolPathsB)
        (selected : List JSStr),
        handleStartB ProcMode.batch hdrPath dvPath outputPath keep par tools [] selected =
          StartOutcomeB.rejected msgQueueEmpty) ∧
    (∀ (hdrPath dvPath outputPath : JSStr) (keep : Bool) (par : Nat) (tools : ToolPathsB)
        (queue : List QueueFile), queue ≠ [] →
        handleStartB ProcMode.batch hdrPath dvPath outputPath keep par tools queue [] =
          StartOutcomeB.rejected msgSelectEmpty) ∧
    (∀ (hdrPath dvPath outputPath : JSStr) (keep : Bool) (par : Nat) (tools : ToolPathsB)
        (queue : List QueueFile) (selected : List JSStr),
        queue ≠ [] → selected ≠ [] →
        (handleStartB ProcMode.batch hdrPath dvPath outputPath keep par tools queue
            selected).startedQueue =
          some (queue.filter fun item => decide (item.id ∈ selected))) ∧
    (∀ (p1 p2 p3 p4 : JSStr) (d1 d2 : ℚ) (keep : Bool) (par : Nat) (tools : ToolPaths)
        (queue : List QueueFile) (selected : List JSStr),
        queue ≠ [] → selected ≠ [] →
        (handleStartA ProcMode.batch p1 p2 p3 p4 d1 d2 keep par tools queue
            selected).startedQueue =
          some (queue.filter fun item => decide (item.id ∈ selected))) ∧
    (∀ (p1 p2 p3 p4 : JSStr) (d1 d2 : ℚ) (keep : Bool) (par : Nat) (tools : ToolPaths)
        (queue : List QueueFile), queue ≠ [] →
        (handleStartA ProcMode.batch p1 p2 p3 p4 d1 d2 keep par tools queue []).startedQueue =
          some queue) := by
  refine ⟨?_, ?_, ?_, ?_, ?_⟩
  · intro hdrPath dvPath outputPath keep par tools selected
    simp [handleStartB]
  · intro hdrPath dvPath outputPath keep par tools queue hq
    simp [handleStartB, List.length_eq_zero, hq]
  · intro hdrPath dvPath outputPath keep par tools queue selected hq hs
    simp [handleStartB, List.length_eq_zero, hq, hs, StartOutcomeB.startedQueue]
  · intro p1 p2 p3 p4 d1 d2 keep par tools queue selected hq hs
    have hlen : 0 < selected.length := List.length_pos.mpr hs
    simp [handleStartA, List.length_eq_zero, hq, hlen, StartOutcomeA.startedQueue]
  · intro p1 p2 p3 p4 d1 d2 keep par tools queue hq
    simp [handleStartA, List.length_eq_zero, hq, StartOutcomeA.startedQueue]

/-- Witness for C5's amended theorem at concrete inputs. -/
theorem batch_submission_amended_witness :
    handleStartB ProcMode.batch "h".data "d".data [] false 4
        ⟨"dovi_tool".data, "mkvmerge".data, "mkvextract".data, "ffmpeg".data, "DV.HDR".data⟩
        [c5Entry] [] = StartOutcomeB.rejected msgSelectEmpty ∧
    (handleStartB ProcMode.batch "h".data "d".data [] false 4
        ⟨"dovi_tool".data, "mkvmerge".data, "mkvextract".data, "ffmpeg".data, "DV.HDR".data⟩
        [c5Entry] ["a1".data]).startedQueue =
      some ([c5Entry].filter fun item => decide (item.id ∈ ["a1".data])) ∧
    (handleStartA ProcMode.batch "h".data "d".data [] [] 0 0 false 4 defaultToolPaths
        [c5Entry] []).startedQueue = some [c5Entry] := by
  refine ⟨batch_submission_amended.2.1 _ _ _ _ _ _ _ (by decide),
          batch_submission_amended.2.2.1 _ _ _ _ _ _ _ _ (by decide) (by decide),
          batch_submission_amended.2.2.2.2 _ _ _ _ _ _ _ _ _ _ (by decide)⟩

/-! ## Persisted-state loading for claim C6

`JSON.parse` of a persisted entry is modelled as `Option (Option X)`:
`none` is an absent storage key (`getItem` returned `null`), `some none` is a
present entry whose parse throws (the `catch` branch: the failure is logged
and the state is left at the hardcoded defaults), and `some (some p)` is a
successful parse of a partial value `p` whose missing fields are `none`. -/

/-- The two fields of the persisted `hybrid-dv-hdr-config` entry read by the
fully featured variant's load effect (`parsed.parallelTasks ?? 4`,
`parsed.keepTempFiles ?? false`). -/
structure StoredConfigA where
  parallelTasks : Option Nat
  keepTempFiles : Option Bool
deriving DecidableEq

/-- The fully featured variant's `localStorage` config-load effect. -/
def loadConfigEffect (prev : ProcessingConfigA) (stored : Option (Option StoredConfigA)) :
    ProcessingConfigA :=
  match stored with
  | none => prev
  | some none => prev
  | some (some parsed) =>
    { prev with
      parallelTasks := parsed.parallelTasks.getD 4
      keepTempFiles := parsed.keepTempFiles.getD false }

/-- A parsed partial `ToolPaths` object. -/
structure StoredToolPaths where
  doviTool : Option JSStr
  mkvmerge : Option JSStr
  mkvextract : Option JSStr
  ffmpeg : Option JSStr
  mediainfo : Option JSStr
  mp4box : Option JSStr
  hdr10plusTool : Option JSStr
  defaultOutput : Option JSStr
deriving DecidableEq

/-- The object spread `{ ...defaultToolPaths, ...parsed }`. -/
def mergeToolPaths (d : ToolPaths) (p : StoredToolPaths) : ToolPaths where
  doviTool := p.doviTool.getD d.doviTool
  mkvmerge := p.mkvmerge.getD d.mkvmerge
  mkvextract := p.mkvextract.getD d.mkvextract
  ffmpeg := p.ffmpeg.getD d.ffmpeg
  mediainfo := p.mediainfo.getD d.mediainfo
  mp4box := p.mp4box.getD d.mp4box
  hdr10plusTool := p.hdr10plusTool.getD d.hdr10plusTool
  defaultOutput := p.defaultOutput.getD d.defaultOutput

/-- The fully featured variant's tool-paths load effect
(`setToolPaths({ ...defaultToolPaths, ...parsed })`). -/
def loadToolsEffect (prev : ToolPaths) (stored : Option (Option StoredToolPaths)) :
    ToolPaths :=
  match stored with
  | some (some parsed) => mergeToolPaths defaultToolPaths parsed
  | _ => prev

/-- The fully featured variant's presets load effect; the innermost `Option`
is the `Array.isArray(parsed)` check (a successfully parsed non-array is
ignored). -/
def loadPresetsEffect (prev : List Preset)
    (stored : Option (Option (Option (List Preset)))) : List Preset :=
  match stored with
  | some (some (some parsed)) => parsed
  | _ => prev

/-- `ProcessingConfig` of the lazy-initializer variant. -/
structure ProcessingConfigC where
  hdrPath : JSStr
  dvPath : JSStr
  outputPath : JSStr
  mode : ProcMode
  parallelTasks : Nat
  keepTempFiles : Bool
deriving DecidableEq

/-- The hardcoded default config of the lazy-initializer variant. -/
def defaultConfigC : ProcessingConfigC where
  hdrPath := []
  dvPath := []
  outputPath := []
  mode := .single
  parallelTasks := 8
  keepTempFiles := false

/-- A parsed `Partial<ProcessingConfig>` of the lazy-initializer variant. -/
structure StoredConfigC where
  hdrPath : Option JSStr
  dvPath : Option JSStr
  outputPath : Option JSStr
  mode : Option ProcMode
  parallelTasks : Option Nat
  keepTempFiles : Option Bool
deriving DecidableEq

/-- The lazy `useState` initializer for the config of that variant:
the parsed partial value is spread over the full default record, and both a
missing entry and a parse failure fall back to the defaults. -/
def initConfigC (stored : Option (Option StoredConfigC)) : ProcessingConfigC :=
  match stored with
  | none => defaultConfigC
  | some none => defaultConfigC
  | some (some parsed) =>
    { hdrPath := parsed.hdrPath.getD defaultConfigC.hdrPath
      dvPath := parsed.dvPath.getD defaultConfigC.dvPath
      outputPath := parsed.outputPath.getD defaultConfigC.outputPath
      mode := parsed.mode.getD defaultConfigC.mode
      parallelTasks := parsed.parallelTasks.getD defaultConfigC.parallelTasks
      keepTempFiles := parsed.keepTempFiles.getD defaultConfigC.keepTempFiles }

/-- The hardcoded default tool paths of the lazy-initializer variant. -/
def defaultToolPathsC : ToolPathsB where
  doviTool := "bin\\dovi_tool.exe".data
  mkvmerge := "bin\\mkvmerge.exe".data
  mkvextract := "bin\\mkvextract.exe".data
  ffmpeg := "bin\\ffmpeg.exe".data
  defaultOutput := "DV.HDR".data

/-- A parsed `Partial<ToolPaths>` of the lazy-initializer variant. -/
structure StoredToolPathsC where
  doviTool : Option JSStr
  mkvmerge : Option JSStr
  mkvextract : Option JSStr
  ffmpeg : Option JSStr
  defaultOutput : Option JSStr
deriving DecidableEq

/-- The lazy `useState` initializer for the tool paths of that variant
(`{ ...defaultToolPaths, ...parsed }`, falling back to the defaults). -/
def initToolPathsC (stored : Option (Option StoredToolPathsC)) : ToolPathsB :=
  match stored with
  | none => defaultToolPathsC
  | some none => defaultToolPathsC
  | some (some parsed) =>
    { doviTool := parsed.doviTool.getD defaultToolPathsC.doviTool
      mkvmerge := parsed.mkvmerge.getD defaultToolPathsC.mkvmerge
      mkvextract := parsed.mkvextract.getD defaultToolPathsC.mkvextract
      ffmpeg := parsed.ffmpeg.getD defaultToolPathsC.ffmpeg
      defaultOutput := parsed.defaultOutput.getD defaultToolPathsC.defaultOutput }

/-- C6.  For every persisted entry (processing configuration, tool paths,
presets) the loading code is total: an absent or malformed entry leaves the
hardcoded defaults in place, and a successfully parsed partial value is
merged over the defaults (a field missing from the parsed value keeps its
default).  This covers the fully featured variant's load effect and the
lazy-initializer variant's `useState` initializers. -/
theorem persisted_load_claim :
    (∀ prev : ProcessingConfigA, loadConfigEffect prev none = prev) ∧
    (∀ prev : ProcessingConfigA, loadConfigEffect prev (some none) = prev) ∧
    (∀ (prev : ProcessingConfigA) (p : StoredConfigA),
        loadConfigEffect prev (some (some p)) =
          { prev with
            parallelTasks := p.parallelTasks.getD 4
            keepTempFiles := p.keepTempFiles.getD false }) ∧
    (∀ prev : ToolPaths, loadToolsEffect prev none = prev) ∧
    (∀ prev : ToolPaths, loadToolsEffect prev (some none) = prev) ∧
    (mergeToolPaths defaultToolPaths ⟨none, none, none, none, none, none, none, none⟩ =
      defaultToolPaths) ∧
    (∀ (prev : ToolPaths) (p : StoredToolPaths),
        loadToolsEffect prev (some (some p)) = mergeToolPaths defaultToolPaths p) ∧
    (∀ prev : List Preset,
        loadPresetsEffect prev none = prev ∧
        loadPresetsEffect prev (some none) = prev ∧
        loadPresetsEffect prev (some (some none)) = prev) ∧
    (∀ (prev l : List Preset), loadPresetsEffect prev (some (some (some l))) = l) ∧
    (initConfigC none = defaultConfigC) ∧
    (initConfigC (some none) = defaultConfigC) ∧
    (initConfigC (some (some ⟨none, none, none, none, none, none⟩)) = defaultConfigC) ∧
    (∀ p : StoredConfigC,
        (initConfigC (some (some p))).parallelTasks =
          p.parallelTasks.getD defaultConfigC.parallelTasks ∧
        (initConfigC (some (some p))).keepTempFiles =
          p.keepTempFiles.getD defaultConfigC.keepTempFiles) ∧
    (initToolPathsC none = defaultToolPathsC) ∧
    (initToolPathsC (some none) = defaultToolPathsC) ∧
    (initToolPathsC (some (some ⟨none, none, none, none, none⟩)) = defaultToolPathsC) := by
  exact ⟨fun prev => rfl, fun prev => rfl, fun prev p => rfl,
    fun prev => rfl, fun prev => rfl, rfl, fun prev p => rfl,
    fun prev => ⟨rfl, rfl, rfl⟩, fun prev l => rfl,
    rfl, rfl, rfl, fun p => ⟨rfl, rfl⟩, rfl, rfl, rfl⟩

/-! ## Notification edge-guard (`processing:status` listener) for claim C7 -/

/-- One `processing:status` event as handled by the fully featured variant's
listener: `statusRef` is the mutable ref holding the previously seen status;
the listener updates it only when the status changed, and fires a
notification exactly on a change into `'completed'` or `'error'`.  Returns
the new ref value and whether a notification was dispatched. -/
def statusNotifyStep (ref next : ProcStatus) : ProcStatus × Bool :=
  if ref ≠ next then
    (next, if next = .completed then true else if next = .error then true else false)
  else (ref, false)

/-- Notification flags produced by a sequence of inbound
`processing:status` events, threading the `statusRef`. -/
def notifyFlags (ref : ProcStatus) : List ProcStatus → List Bool
  | [] => []
  | s :: rest => (statusNotifyStep ref s).2 :: notifyFlags (statusNotifyStep ref s).1 rest

lemma statusNotifyStep_fst (ref s : ProcStatus) : (statusNotifyStep ref s).1 = s := by
  cases ref <;> cases s <;> rfl

lemma statusNotifyStep_snd (ref s : ProcStatus) :
    (statusNotifyStep ref s).2 = true ↔
      ((s = ProcStatus.completed ∨ s = ProcStatus.error) ∧ s ≠ ref) := by
  cases ref <;> cases s <;> decide

lemma notifyFlags_getD_iff (ref : ProcStatus) (evs : List ProcStatus) :
    ∀ i : Nat, i < evs.length →
      ((notifyFlags ref evs).getD i false = true ↔
        ((evs.getD i ProcStatus.idle = ProcStatus.completed ∨
          evs.getD i ProcStatus.idle = ProcStatus.error) ∧
          evs.getD i ProcStatus.idle ≠
            (if i = 0 then ref else evs.getD (i - 1) ProcStatus.idle))) := by
  induction evs generalizing ref with
  | nil =>
    intro i hi
    exact absurd hi (by simp)
  | cons s rest ih =>
    intro i hi
    cases i with
    | zero =>
      simp only [notifyFlags, List.getD_cons_zero, if_pos rfl]
      exact statusNotifyStep_snd ref s
    | succ n =>
      have hlen : n < rest.length := by
        simpa using hi
      have H := ih (statusNotifyStep ref s).1 n hlen
      rw [statusNotifyStep_fst] at H
      simp only [notifyFlags, List.getD_cons_succ, statusNotifyStep_fst]
      cases n with
      | zero => simpa using H
      | succ m => simpa using H

/-- C7.  A notification is dispatched for the i-th `processing:status` event
exactly when its status is `'completed'` or `'error'` and differs from the
previously observed status (the initial ref value for the first event);
in particular consecutive events carrying the same status never dispatch a
second notification — at most one per transition. -/
theorem notification_edge_claim :
    (∀ (ref : ProcStatus) (evs : List ProcStatus) (i : Nat), i < evs.length →
        ((notifyFlags ref evs).getD i false = true ↔
          ((evs.getD i ProcStatus.idle = ProcStatus.completed ∨
            evs.getD i ProcStatus.idle = ProcStatus.error) ∧
            evs.getD i ProcStatus.idle ≠
              (if i = 0 then ref else evs.getD (i - 1) ProcStatus.idle)))) ∧
    (∀ (ref : ProcStatus) (evs : List ProcStatus) (i : Nat), i < evs.length → 0 < i →
        evs.getD i ProcStatus.idle = evs.getD (i - 1) ProcStatus.idle →
        (notifyFlags ref evs).getD i false = false) := by
  refine ⟨fun ref evs => notifyFlags_getD_iff ref evs, ?_⟩
  intro ref evs i hi hpos heq
  cases hcase : (notifyFlags ref evs).getD i false with
  | false => rfl
  | true =>
    have H := (notifyFlags_getD_iff ref evs i hi).mp hcase
    rw [if_neg (Nat.pos_iff_ne_zero.mp hpos)] at H
    exact absurd heq H.2

/-- Witness for C7: the first transition into `'completed'` notifies, a
repeated `'completed'` event does not. -/
theorem notification_edge_claim_witness :
    (notifyFlags ProcStatus.idle [ProcStatus.completed, ProcStatus.completed]).getD 0 false =
      true ∧
    (notifyFlags ProcStatus.idle [ProcStatus.completed, ProcStatus.completed]).getD 1 false =
      false :=
  ⟨(notification_edge_claim.1 ProcStatus.idle [ProcStatus.completed, ProcStatus.completed] 0
      (by decide)).mpr (by decide),
    notification_edge_claim.2 ProcStatus.idle [ProcStatus.completed, ProcStatus.completed] 1
      (by decide) (by decide) (by decide)⟩

/-! ## Inbound queue/file progress events for claim C10 -/

/-- The per-item ETA metadata map (`queueMetaRef` / `fileMetaRef`), as an
insertion-ordered association list like a JavaScript `Map`. -/
abbrev MetaMap := List (JSStr × EtaMeta)

/-- `Map.prototype.get`. -/
def mapGet (m : MetaMap) (k : JSStr) : Option EtaMeta :=
  (m.find? fun kv => kv.1 == k).map fun kv => kv.2

/-- `Map.prototype.set`: overwrite the existing key or append. -/
def mapSet : MetaMap → JSStr → EtaMeta → MetaMap
  | [], k, v => [(k, v)]
  | kv :: rest, k, v =>
    if kv.1 == k then (kv.1, v) :: rest else kv :: mapSet rest k v

/-- `Map.prototype.delete`. -/
def mapDelete : MetaMap → JSStr → MetaMap
  | [], _ => []
  | kv :: rest, k => if kv.1 == k then rest else kv :: mapDelete rest k

/-- A `processing:queue` event payload. -/
structure QueuePayload where
  id : JSStr
  status : QueueStatus
  progress : ℚ
  currentStep : Option JSStr
  activeWorkers : Option Nat
  fileTotal : Option Nat
deriving DecidableEq

/-- `payload.currentStep || undefined`: an empty string becomes absence. -/
def orUndefined (o : Option JSStr) : Option JSStr :=
  match o with
  | some v => if v = [] then none else some v
  | none => none

/-- The body of the fully featured variant's `processing:queue` listener for
the item whose id matches the payload: update status/progress/step and the
ETA bookkeeping (`computeSmoothedEta` while `'processing'`, eta 0 and meta
eviction on `'completed'`, eviction on `'error'`/`'pending'`). -/
def queueEventItem (now : ℚ) (m : MetaMap) (payload : QueuePayload) (item : QueueFile) :
    QueueFile × MetaMap :=
  let r :=
    match payload.status with
    | .processing =>
      let meta := (mapGet m item.id).getD { start := now, lastProgress := 0, samples := [] }
      let sm := computeSmoothedEta meta now payload.progress
      let eta :=
        match sm.2 with
        | some v => some v
        | none => item.etaSeconds
      (eta, mapSet m item.id { sm.1 with lastProgress := payload.progress })
    | .completed => (some 0, mapDelete m item.id)
    | .error => (item.etaSeconds, mapDelete m item.id)
    | .pending => (item.etaSeconds, mapDelete m item.id)
  ({ item with
      status := payload.status
      progress := payload.progress
      currentStep := orUndefined payload.currentStep
      etaSeconds := r.1
      activeWorkers :=
        match payload.activeWorkers with
        | some w => some w
        | none => item.activeWorkers
      fileTotal :=
        match payload.fileTotal with
        | some t => some t
        | none => item.fileTotal }, r.2)

/-- The `processing:queue` listener: `setQueue(prev => prev.map(item => ...))`
with `if (item.id !== payload.id) return item;`, threading the metadata map
through the traversal in order. -/
def processQueueEvent (now : ℚ) (payload : QueuePayload) :
    List QueueFile → MetaMap → List QueueFile × MetaMap
  | [], m => ([], m)
  | item :: rest, m =>
    if item.id == payload.id then
      let r1 := queueEventItem now m payload item
      let r2 := processQueueEvent now payload rest r1.2
      (r1.1 :: r2.1, r2.2)
    else
      let r := processQueueEvent now payload rest m
      (item :: r.1, r.2)

/-- A `processing:file` event payload. -/
structure FilePayload where
  id : JSStr
  queueId : JSStr
  name : JSStr
  progress : ℚ
deriving DecidableEq

/-- A per-physical-file progress entry of the detail view. -/
structure FileProgressEntry where
  id : JSStr
  queueId : JSStr
  name : JSStr
  progress : ℚ
  etaSeconds : Option ℤ
deriving DecidableEq

/-- The `processing:file` listener of the fully featured variant: compute
the smoothed ETA for the file, then replace the entry with the payload's id
if one exists, otherwise append a new one. -/
def processFileEvent (now : ℚ) (payload : FilePayload)
    (prev : List FileProgressEntry) (m : MetaMap) :
    List FileProgressEntry × MetaMap :=
  let existing := prev.find? fun item => item.id == payload.id
  let meta := (mapGet m payload.id).getD { start := now, lastProgress := 0, samples := [] }
  let sm := computeSmoothedEta meta now payload.progress
  let etaSeconds :=
    match sm.2 with
    | some v => some v
    | none =>
      match existing with
      | some e => e.etaSeconds
      | none => none
  let m1 := mapSet m payload.id { sm.1 with lastProgress := payload.progress }
  let nextEntry : FileProgressEntry :=
    { id := payload.id, queueId := payload.queueId, name := payload.name
      progress := payload.progress, etaSeconds := etaSeconds }
  match existing with
  | some _ => (prev.map fun item => if item.id == payload.id then nextEntry else item, m1)
  | none => (prev ++ [nextEntry], m1)

/-- C10.  A `processing:queue` event whose id matches no queue item leaves
the queue and the metadata map entirely unchanged, and such events never
change the number of queue entries; a `processing:file` event with an
unknown id appends exactly one new entry carrying that id, while one with a
known id replaces exactly the matching entries and leaves every other entry
unchanged. -/
theorem queue_and_file_event_frame :
    (∀ (now : ℚ) (payload : QueuePayload) (queue : List QueueFile) (m : MetaMap),
        (∀ item ∈ queue, item.id ≠ payload.id) →
        processQueueEvent now payload queue m = (queue, m)) ∧
    (∀ (now : ℚ) (payload : QueuePayload) (queue : List QueueFile) (m : MetaMap),
        (processQueueEvent now payload queue m).1.length = queue.length) ∧
    (∀ (now : ℚ) (payload : FilePayload) (prev : List FileProgressEntry) (m : MetaMap),
        (∀ e ∈ prev, e.id ≠ payload.id) →
        ∃ newEntry : FileProgressEntry, newEntry.id = payload.id ∧
          (processFileEvent now payload prev m).1 = prev ++ [newEntry]) ∧
    (∀ (now : ℚ) (payload : FilePayload) (prev : List FileProgressEntry) (m : MetaMap),
        (∃ e ∈ prev, e.id = payload.id) →
        ∃ newEntry : FileProgressEntry, newEntry.id = payload.id ∧
          (processFileEvent now payload prev m).1 =
            prev.map fun item => if item.id == payload.id then newEntry else item) := by
  refine ⟨?_, ?_, ?_, ?_⟩
  · intro now payload queue m h
    induction queue generalizing m with
    | nil => rfl
    | cons item rest ih =>
      have hne : (item.id == payload.id) = false :=
        beq_eq_false_iff_ne.mpr (h item (List.mem_cons_self item rest))
      have hrest := ih m fun x hx => h x (List.mem_cons_of_mem item hx)
      simp only [processQueueEvent, hne, Bool.false_eq_true, if_false, hrest]
  · intro now payload queue m
    induction queue generalizing m with
    | nil => rfl
    | cons item rest ih =>
      by_cases hb : (item.id == payload.id) = true
      · simp only [processQueueEvent, hb, if_true, List.length_cons, ih]
      · have hb' : (item.id == payload.id) = false := by
          cases hcase : (item.id == payload.id)
          · rfl
          · exact absurd hcase hb
        simp only [processQueueEvent, hb', Bool.false_eq_true, if_false,
          List.length_cons, ih]
  · intro now payload prev m h
    have hfind : prev.find? (fun item => item.id == payload.id) = none := by
      rw [List.find?_eq_none]
      intro x hx
      simp only [beq_iff_eq]
      exact h x hx
    simp only [processFileEvent, hfind]
    exact ⟨_, rfl, rfl⟩
  · intro now payload prev m h
    have hsome : (prev.find? fun item => item.id == payload.id).isSome := by
      rw [List.find?_isSome]
      obtain ⟨e, he, hid⟩ := h
      exact ⟨e, he, beq_iff_eq.mpr hid⟩
    obtain ⟨e, hfind⟩ := Option.isSome_iff_exists.mp hsome
    simp only [processFileEvent, hfind]
    exact ⟨_, rfl, rfl⟩

/-- Witness for C10 at concrete inputs. -/
theorem queue_and_file_event_frame_witness :
    processQueueEvent 0
        ⟨"nope".data, QueueStatus.processing, 10, none, none, none⟩ [c5Entry] [] =
      ([c5Entry], []) ∧
    (processQueueEvent 0
        ⟨"nope".data, QueueStatus.processing, 10, none, none, none⟩ [c5Entry] []).1.length =
      1 ∧
    (processFileEvent 0 ⟨"f1".data, "q1".data, "n".data, 10⟩ [] []).1.map
        (fun e => e.id) = ["f1".data] := by
  refine ⟨queue_and_file_event_frame.1 0 _ [c5Entry] [] (by decide), ?_, ?_⟩
  · rw [queue_and_file_event_frame.1 0 _ [c5Entry] [] (by decide)]
    rfl
  · obtain ⟨newEntry, hid, happ⟩ :=
      queue_and_file_event_frame.2.2.1 0 ⟨"f1".data, "q1".data, "n".data, 10⟩ [] []
        (by intro e he; cases he)
    rw [happ, List.nil_append, List.map_cons, List.map_nil, hid]

end HybridDVHDR
